import Mathlib

/-!
# Food_App: authentication / session-token service

A shallow embedding of `service/auth.go` (type `AuthService`).  The service talks to three kinds of
collaborators whose code is outside the service file:

* the Redis client (`h.redisClient`), modelled here as an explicit key-value state with a clock,
  per-key expiry and an injected transport-fault oracle;
* the user service interface `UserServiceI`, the token codec `GenerateToken`, `bcrypt` and the
  `utils` helpers, which are taken as parameters acting on an abstract outside-world state `ω`.

Every Go function `f(args) (T, error)` becomes a Lean function returning `Except GoError T`
together with the world after the call; a Go function returning only `error` returns
`Option GoError` (`none` is Go's `nil`).
-/

namespace FoodApp

/-! ## Go values -/

/-- Go `error` values as the service can observe them: the sentinel `redis.Nil`, which the code
compares by identity, and any other error, known by its message. -/
inductive GoError where
  | redisNil
  | text (msg : String)
deriving DecidableEq, Repr

/-- The method `Error()` of a Go error. -/
def GoError.Error : GoError → String
  | .redisNil => "redis: nil"
  | .text msg => msg

/-- Go `errors.New(msg)`; `fmt.Errorf(msg)` with a verb-free format string builds the same error. -/
def errorsNew (msg : String) : GoError := .text msg

/-- The error `bcrypt.ErrMismatchedHashAndPassword` of `golang.org/x/crypto/bcrypt`. -/
def ErrMismatchedHashAndPassword : GoError :=
  .text "crypto/bcrypt: hashedPassword is not the hash of the given password"

/-- The fields of `response.User` that the auth service reads.  The service converts the id with
`int(user.ID)` at every use; ids are integers here and the conversion is the identity. -/
structure User where
  ID : Int
  Email : String
  Password : String
deriving DecidableEq, Repr

/-- The fields of `config.Config` that the auth service reads. -/
structure Config where
  AccessLifetimeMinutes : Int
  RefreshLifetimeMinutes : Int
  AccessSecret : String
  RefreshSecret : String
deriving DecidableEq, Repr

structure LoginRequest where
  Email : String
  Password : String
deriving DecidableEq, Repr

structure PasswordResetEmailRequest where
  Email : String
deriving DecidableEq, Repr

structure PasswordResetRequest where
  Email : String
  ResetCode : String
  NewPassword : String
deriving DecidableEq, Repr

structure ChangePasswordRequest where
  OldPassword : String
  NewPassword : String
deriving DecidableEq, Repr

/-- The type `response.TokenResponse`: the token pair handed to the caller. -/
structure TokenResponse where
  AccessToken : String
  RefreshToken : String
deriving DecidableEq, Repr

/-- The type `TokenMapping`: the identifiers of the currently valid tokens of one user. -/
structure TokenMapping where
  AccessUid : String
  RefreshUid : String
deriving DecidableEq, Repr

/-! ## Durations (`time.Duration` is an `int64` count of nanoseconds) -/

/-- Two's-complement wrap-around of an integer into the `int64` range. -/
def wrapInt64 (x : Int) : Int := (x + 2 ^ 63) % 2 ^ 64 - 2 ^ 63

/-- The constant `time.Minute`, in nanoseconds. -/
def Minute : Int := 60000000000

/-- The expression `time.Duration(m) * time.Minute`. -/
def minutesDuration (m : Int) : Int := wrapInt64 (m * Minute)

/-- The expression `time.Minute * 10` of `StoreResetCode`. -/
def resetCodeTTL : Int := wrapInt64 (Minute * 10)

/-! ## The Redis client -/

/-- One stored key: its value and the instant (nanoseconds) at which it expires, if any. -/
structure Entry where
  value : String
  expireAt : Option Int
deriving DecidableEq, Repr

/-- State behind `h.redisClient`: the keys held by the server, the server clock, and the transport
faults: command number `i` issued through this client fails with message `m` without reaching the
server when `faults i = some m`; `calls` counts the commands issued so far. -/
structure Redis where
  store : String → Option Entry
  now : Int
  faults : Nat → Option String
  calls : Nat

/-- The entry a key holds for a reader at the current instant: expired keys are absent. -/
def Redis.live (r : Redis) (key : String) : Option Entry :=
  match r.store key with
  | none => none
  | some e =>
    match e.expireAt with
    | none => some e
    | some t => if r.now < t then some e else none

/-- The remaining time to live of a key: `none` when the key is absent, `some none` when it never
expires, `some (some d)` when it expires in `d` nanoseconds. -/
def Redis.ttl (r : Redis) (key : String) : Option (Option Int) :=
  match r.live key with
  | none => none
  | some e =>
    match e.expireAt with
    | none => some none
    | some t => some (some (t - r.now))

/-- One more command has been issued. -/
def Redis.issued (r : Redis) : Redis := { r with calls := r.calls + 1 }

/-- Time passes: the server clock moves `d` nanoseconds forward. -/
def Redis.advance (r : Redis) (d : Nat) : Redis := { r with now := r.now + d }

/-- The constant `redis.KeepTTL`. -/
def KeepTTL : Int := -1

/-- The command `redisClient.Set(ctx, key, value, expiration).Err()`: a positive expiration makes
the key expire that long after now, `KeepTTL` keeps the expiry the key has, anything else stores the
key without expiry.  Durations are not rounded to the millisecond. -/
def Redis.Set (r : Redis) (key value : String) (expiration : Int) : Option GoError × Redis :=
  match r.faults r.calls with
  | some m => (some (.text m), r.issued)
  | none =>
    let expireAt : Option Int :=
      if expiration > 0 then some (r.now + expiration)
      else if expiration = KeepTTL then
        match r.live key with
        | some e => e.expireAt
        | none => none
      else none
    (none, { r.issued with store := fun k => if k = key then some ⟨value, expireAt⟩ else r.store k })

/-- The command `redisClient.Get(ctx, key).Result()`: an absent or expired key gives `redis.Nil`. -/
def Redis.Get (r : Redis) (key : String) : Except GoError String × Redis :=
  match r.faults r.calls with
  | some m => (.error (.text m), r.issued)
  | none =>
    match r.live key with
    | none => (.error .redisNil, r.issued)
    | some e => (.ok e.value, r.issued)

/-- The command `redisClient.Del(ctx, key).Err()`: deleting an absent key is not an error. -/
def Redis.Del (r : Redis) (key : String) : Option GoError × Redis :=
  match r.faults r.calls with
  | some m => (some (.text m), r.issued)
  | none => (none, { r.issued with store := fun k => if k = key then none else r.store k })

/-- The next `n` commands issued through the client reach the server (no transport fault). -/
def Redis.reachable (r : Redis) (n : Nat) : Prop := ∀ i, i < n → r.faults (r.calls + i) = none

/-! ## The service and its world -/

/-- Everything the service can touch: the state `ext` of the collaborators outside the service
(credential store, token codec entropy, mail transport), the Redis state, and the lines written
with `log.Printf`. -/
structure World (ω : Type) where
  ext : ω
  redis : Redis
  logs : List String

/-- The methods of the interface `UserServiceI` that the methods below call (`Register`, which
only forwards to `RegisterUser`, is not part of this development).  Each method may change the
state of the outside world. -/
structure UserServiceI (ω : Type) where
  GetUserByEmail : ω → String → Except GoError User × ω
  GetUserByID : ω → Int → Except GoError User × ω
  UpdateUserPasswordById : ω → Int → String → Option GoError × ω

/-- The struct `AuthService` (`UserServiceI`, `cfg`; the field `redisClient` is the `redis`
component of the world), together with the package-level functions the methods call:
`bcrypt.CompareHashAndPassword`, `GenerateToken`, `utils.GenerateResetCode` and
`utils.SendResetCodeEmail`. -/
structure AuthService (ω : Type) where
  UserServiceI : FoodApp.UserServiceI ω
  cfg : Config
  CompareHashAndPassword : String → String → Option GoError
  GenerateToken : ω → Int → Int → String → Except GoError (String × String) × ω
  GenerateResetCode : ω → String × ω
  SendResetCodeEmail : ω → String → String → Config → Option GoError × ω

variable {ω : Type}

/-- The call `log.Printf(line)` with the line already formatted. -/
def World.Printf (w : World ω) (line : String) : World ω := { w with logs := w.logs ++ [line] }

/-- The key `fmt.Sprintf("access-%d", userID)`. -/
def accessTokenKey (userID : Int) : String := "access-" ++ toString userID

/-- The key `fmt.Sprintf("refresh-%d", userID)`. -/
def refreshTokenKey (userID : Int) : String := "refresh-" ++ toString userID

/-- The key `fmt.Sprintf("reset_code:%s", email)`. -/
def resetCodeKey (email : String) : String := "reset_code:" ++ email

/-- The number a list of decimal digit characters spells, most significant digit first: the
inverse of the `%d` formatting of a natural number. -/
def decimalValue (l : List Char) : Nat := l.foldl (fun a c => 10 * a + (c.toNat - 48)) 0

/-- Method `StoreTokensByUserID`. -/
def AuthService.StoreTokensByUserID (h : AuthService ω) (userID : Int) (tokens : TokenMapping)
    (w : World ω) : Option GoError × World ω :=
  match w.redis.Set (accessTokenKey userID) tokens.AccessUid
      (minutesDuration h.cfg.AccessLifetimeMinutes) with
  | (some err, r1) => (some err, { w with redis := r1 })
  | (none, r1) =>
    match r1.Set (refreshTokenKey userID) tokens.RefreshUid
        (minutesDuration h.cfg.RefreshLifetimeMinutes) with
    | (some err, r2) => (some err, { w with redis := r2 })
    | (none, r2) => (none, { w with redis := r2 })

/-- Method `GetTokensByUserID`. -/
def AuthService.GetTokensByUserID (_h : AuthService ω) (userID : Int) (w : World ω) :
    Except GoError TokenMapping × World ω :=
  match w.redis.Get (accessTokenKey userID) with
  | (.error err, r1) => (.error err, { w with redis := r1 })
  | (.ok accessUid, r1) =>
    match r1.Get (refreshTokenKey userID) with
    | (.error err, r2) => (.error err, { w with redis := r2 })
    | (.ok refreshUid, r2) => (.ok ⟨accessUid, refreshUid⟩, { w with redis := r2 })

/-- Method `DeleteTokensByUserID`. -/
def AuthService.DeleteTokensByUserID (_h : AuthService ω) (userID : Int) (w : World ω) :
    Option GoError × World ω :=
  match w.redis.Del (accessTokenKey userID) with
  | (some err, r1) => (some err, { w with redis := r1 })
  | (none, r1) =>
    match r1.Del (refreshTokenKey userID) with
    | (some err, r2) => (some err, { w with redis := r2 })
    | (none, r2) => (none, { w with redis := r2 })

/-- Method `Login`. -/
def AuthService.Login (h : AuthService ω) (req : LoginRequest) (w : World ω) :
    Except GoError TokenResponse × World ω :=
  match h.UserServiceI.GetUserByEmail w.ext req.Email with
  | (.error _, x1) => (.error (errorsNew "user with this email not found"), { w with ext := x1 })
  | (.ok user, x1) =>
    match h.CompareHashAndPassword user.Password req.Password with
    | some err => (.error err, { w with ext := x1 })
    | none =>
      match h.GenerateToken x1 user.ID h.cfg.AccessLifetimeMinutes h.cfg.AccessSecret with
      | (.error err, x2) => (.error err, { w with ext := x2 })
      | (.ok (accessString, accessUid), x2) =>
        match h.GenerateToken x2 user.ID h.cfg.RefreshLifetimeMinutes h.cfg.RefreshSecret with
        | (.error err, x3) => (.error err, { w with ext := x3 })
        | (.ok (refreshString, refreshUid), x3) =>
          match h.StoreTokensByUserID user.ID ⟨accessUid, refreshUid⟩ { w with ext := x3 } with
          | (some err, w1) => (.error err, w1)
          | (none, w1) => (.ok ⟨accessString, refreshString⟩, w1)

/-- Method `GetTokenPair`. -/
def AuthService.GetTokenPair (h : AuthService ω) (userID : Int) (w : World ω) :
    Except GoError TokenResponse × World ω :=
  match h.DeleteTokensByUserID userID w with
  | (some err, w1) => (.error err, w1)
  | (none, w1) =>
    match h.GenerateToken w1.ext userID h.cfg.AccessLifetimeMinutes h.cfg.AccessSecret with
    | (.error err, x1) => (.error err, { w1 with ext := x1 })
    | (.ok (accessToken, accessUid), x1) =>
      match h.GenerateToken x1 userID h.cfg.RefreshLifetimeMinutes h.cfg.RefreshSecret with
      | (.error err, x2) => (.error err, { w1 with ext := x2 })
      | (.ok (refreshToken, refreshUid), x2) =>
        match h.StoreTokensByUserID userID ⟨accessUid, refreshUid⟩ { w1 with ext := x2 } with
        | (some err, w2) => (.error err, w2)
        | (none, w2) => (.ok ⟨accessToken, refreshToken⟩, w2)

/-- Method `StoreResetCode`. -/
def AuthService.StoreResetCode (_h : AuthService ω) (email resetCode : String) (w : World ω) :
    Option GoError × World ω :=
  match w.redis.Set (resetCodeKey email) resetCode resetCodeTTL with
  | (some err, r1) => (some err, { w with redis := r1 })
  | (none, r1) => (none, { w with redis := r1 })

/-- Method `GetResetCodeByUserEmail`. -/
def AuthService.GetResetCodeByUserEmail (_h : AuthService ω) (email : String) (w : World ω) :
    Except GoError String × World ω :=
  match w.redis.Get (resetCodeKey email) with
  | (.error err, r1) =>
    if err = .redisNil then
      (.error (errorsNew "invalid or expired reset code"), { w with redis := r1 })
    else (.error err, { w with redis := r1 })
  | (.ok resetCode, r1) => (.ok resetCode, { w with redis := r1 })

/-- Method `InitiatePasswordReset`. -/
def AuthService.InitiatePasswordReset (h : AuthService ω) (req : PasswordResetEmailRequest)
    (w : World ω) : Option GoError × World ω :=
  match h.UserServiceI.GetUserByEmail w.ext req.Email with
  | (.error err, x1) =>
    (some (errorsNew "failed to initiate password reset: user not found"),
      ({ w with ext := x1 } : World ω).Printf ("Failed to get user by email: " ++ err.Error))
  | (.ok user, x1) =>
    match h.GenerateResetCode x1 with
    | (resetCode, x2) =>
      match h.StoreResetCode user.Email resetCode { w with ext := x2 } with
      | (some err, w1) => (some err, w1.Printf ("Failed to store reset code: " ++ err.Error))
      | (none, w1) =>
        match h.SendResetCodeEmail w1.ext req.Email resetCode h.cfg with
        | (some err, x3) =>
          (some (errorsNew "failed to initiate password reset: internal server error"),
            ({ w1 with ext := x3 } : World ω).Printf
              ("Failed to send reset code email: " ++ err.Error))
        | (none, x3) => (none, { w1 with ext := x3 })

/-- Method `SubmitResetCode`. -/
def AuthService.SubmitResetCode (h : AuthService ω) (req : PasswordResetRequest) (w : World ω) :
    Option GoError × World ω :=
  match h.GetResetCodeByUserEmail req.Email w with
  | (.error _, w1) => (some (errorsNew "failed to retrieve reset code"), w1)
  | (.ok resetCode, w1) =>
    if resetCode ≠ req.ResetCode then (some (errorsNew "invalid reset code"), w1)
    else
      match h.UserServiceI.GetUserByEmail w1.ext req.Email with
      | (.error _, x1) => (some (errorsNew "failed to retrieve user"), { w1 with ext := x1 })
      | (.ok user, x1) =>
        match h.UserServiceI.UpdateUserPasswordById x1 user.ID req.NewPassword with
        | (some err, x2) => (some err, { w1 with ext := x2 })
        | (none, x2) => (none, { w1 with ext := x2 })

/-- Method `Logout`. -/
def AuthService.Logout (h : AuthService ω) (userID : Int) (w : World ω) :
    Option GoError × World ω :=
  match h.DeleteTokensByUserID userID w with
  | (some err, w1) => (some err, w1)
  | (none, w1) => (none, w1)

/-- Method `ChangePassword`: the tokens are generated with the lifetimes and secrets of the
argument `cfg`, the identifiers are stored through `StoreTokensByUserID`, which reads `h.cfg`. -/
def AuthService.ChangePassword (h : AuthService ω) (req : ChangePasswordRequest) (cfg : Config)
    (userID : Int) (w : World ω) : Except GoError TokenResponse × World ω :=
  match h.UserServiceI.GetUserByID w.ext userID with
  | (.error _, x1) => (.error (errorsNew "failed to retrieve user"), { w with ext := x1 })
  | (.ok user, x1) =>
    match h.CompareHashAndPassword user.Password req.OldPassword with
    | some _ => (.error (errorsNew "invalid current password"), { w with ext := x1 })
    | none =>
      match h.UserServiceI.UpdateUserPasswordById x1 user.ID req.NewPassword with
      | (some _, x2) => (.error (errorsNew "failed to update password"), { w with ext := x2 })
      | (none, x2) =>
        match h.GenerateToken x2 user.ID cfg.AccessLifetimeMinutes cfg.AccessSecret with
        | (.error _, x3) =>
          (.error (errorsNew "failed to generate access token"), { w with ext := x3 })
        | (.ok (accessString, accessUid), x3) =>
          match h.GenerateToken x3 user.ID cfg.RefreshLifetimeMinutes cfg.RefreshSecret with
          | (.error _, x4) =>
            (.error (errorsNew "failed to generate refresh token"), { w with ext := x4 })
          | (.ok (refreshString, refreshUid), x4) =>
            match h.DeleteTokensByUserID user.ID { w with ext := x4 } with
            | (some err, w1) =>
              (.error (errorsNew "failed to delete existing token pair"),
                w1.Printf ("Failed to delete existing token pair: " ++ err.Error))
            | (none, w1) =>
              match h.StoreTokensByUserID user.ID ⟨accessUid, refreshUid⟩ w1 with
              | (some _, w2) => (.error (errorsNew "failed to store token pair"), w2)
              | (none, w2) => (.ok ⟨accessString, refreshString⟩, w2)

/-! ## A concrete deployment, used to run the service on explicit inputs -/

/-- Outside world of the concrete deployment: the user table and the number of tokens issued. -/
structure Outside where
  users : List User
  issuedTokens : Nat
deriving DecidableEq, Repr

/-- A stand-in for the bcrypt hash: the hash of `p` is `"hash:" ++ p`. -/
def demoHash (password : String) : String := "hash:" ++ password

/-- Lookup by email in the user table. -/
def demoGetUserByEmail (x : Outside) (email : String) : Except GoError User × Outside :=
  match x.users.find? (fun u => u.Email = email) with
  | some u => (.ok u, x)
  | none => (.error (.text "record not found"), x)

/-- Lookup by id in the user table. -/
def demoGetUserByID (x : Outside) (id : Int) : Except GoError User × Outside :=
  match x.users.find? (fun u => u.ID = id) with
  | some u => (.ok u, x)
  | none => (.error (.text "record not found"), x)

/-- Replace the stored hash of the user with the given id. -/
def demoUpdateUserPasswordById (x : Outside) (id : Int) (password : String) :
    Option GoError × Outside :=
  let rehash : User → User := fun u =>
    if u.ID = id then { u with Password := demoHash password } else u
  (none, { x with users := x.users.map rehash })

/-- Comparison of a stored hash with a password, answering like bcrypt on a mismatch. -/
def demoCompare (hash password : String) : Option GoError :=
  if hash = demoHash password then none else some ErrMismatchedHashAndPassword

/-- A token codec whose token string spells out the arguments it was called with and whose
identifier is the issuance number. -/
def demoGenerateToken (x : Outside) (userID lifetimeMinutes : Int) (secret : String) :
    Except GoError (String × String) × Outside :=
  (.ok (secret ++ ":user=" ++ toString userID ++ ":minutes=" ++ toString lifetimeMinutes,
        "uid-" ++ toString x.issuedTokens),
    { x with issuedTokens := x.issuedTokens + 1 })

/-- The service configuration of the concrete deployment. -/
def demoCfg : Config := ⟨15, 60, "as", "rs"⟩

/-- The concrete deployment, with a mail transport that delivers. -/
def demo : AuthService Outside where
  UserServiceI := ⟨demoGetUserByEmail, demoGetUserByID, demoUpdateUserPasswordById⟩
  cfg := demoCfg
  CompareHashAndPassword := demoCompare
  GenerateToken := demoGenerateToken
  GenerateResetCode := fun x => ("123456", x)
  SendResetCodeEmail := fun x _ _ _ => (none, x)

/-- The concrete deployment with a mail transport that rejects every message. -/
def demoMailDown : AuthService Outside :=
  { demo with SendResetCodeEmail := fun x _ _ _ =>
      (some (.text "smtp: 550 mailbox unavailable"), x) }

/-- An empty, reachable Redis at instant `0`. -/
def emptyRedis : Redis := ⟨fun _ => none, 0, fun _ => none, 0⟩

/-- A world with one registered user (id `1`, password `"pw"`) and an empty cache. -/
def demoWorld : World Outside := ⟨⟨[⟨1, "a@b.com", demoHash "pw"⟩], 0⟩, emptyRedis, []⟩

/-- The world of `demoWorld` with a Redis server that refuses every connection. -/
def cacheDownWorld : World Outside :=
  { demoWorld with redis :=
      { emptyRedis with faults := fun _ => some "dial tcp 127.0.0.1:6379: connect: connection refused" } }

/-- A configuration whose lifetimes differ from those of `demoCfg`. -/
def shortCfg : Config := ⟨5, 30, "as", "rs"⟩

/-- The world `w` after `d` nanoseconds have passed with nothing else happening. -/
def World.later (w : World ω) (d : Nat) : World ω := { w with redis := w.redis.advance d }

/-- The world after the reset code `123456` has been stored for `a@b.com` at instant `0`. -/
def resetWorld : World Outside := (demo.StoreResetCode "a@b.com" "123456" demoWorld).2

/-- The world after user `1` has logged in once on the concrete deployment: the cache holds the
identifiers `uid-0` and `uid-1` for that user. -/
def sessionWorld : World Outside := (demo.Login ⟨"a@b.com", "pw"⟩ demoWorld).2

/-- The session of user `v` is the same in world `w2` as in world `w`: the access key and the
refresh key of `v` hold the same entries (value and expiry) for a reader, and whenever the cache is
reachable for the two reads in both worlds, `GetTokensByUserID v` returns the same result. -/
def SessionUntouched (h : AuthService ω) (v : Int) (w w2 : World ω) : Prop :=
  w2.redis.live (accessTokenKey v) = w.redis.live (accessTokenKey v) ∧
    w2.redis.live (refreshTokenKey v) = w.redis.live (refreshTokenKey v) ∧
    (w.redis.reachable 2 → w2.redis.reachable 2 →
      (h.GetTokensByUserID v w2).1 = (h.GetTokensByUserID v w).1)

/-! ## Facts about the cache keys -/

theorem digitChar_value (d : Nat) (hd : d < 10) : (Nat.digitChar d).toNat - 48 = d := by
  interval_cases d <;> rfl

theorem digitChar_ne_minus (d : Nat) (hd : d < 10) : Nat.digitChar d ≠ '-' := by
  interval_cases d <;> decide

theorem toDigitsCore_append (fuel : Nat) : ∀ (n : Nat) (acc : List Char),
    Nat.toDigitsCore 10 fuel n acc = Nat.toDigitsCore 10 fuel n [] ++ acc := by
  induction fuel with
  | zero => intro n acc; simp [Nat.toDigitsCore]
  | succ fuel ih =>
    intro n acc
    simp only [Nat.toDigitsCore]
    split
    · simp
    · rw [ih (n / 10) (Nat.digitChar (n % 10) :: acc), ih (n / 10) [Nat.digitChar (n % 10)]]
      simp

theorem decimalValue_toDigitsCore (fuel : Nat) : ∀ n, n < fuel →
    decimalValue (Nat.toDigitsCore 10 fuel n []) = n := by
  induction fuel with
  | zero => intro n hn; omega
  | succ fuel ih =>
    intro n hn
    simp only [Nat.toDigitsCore]
    have hd := digitChar_value (n % 10) (Nat.mod_lt _ (by decide))
    split
    · rename_i h0
      simp only [decimalValue, List.foldl, hd]
      omega
    · rename_i h0
      rw [toDigitsCore_append]
      have := ih (n / 10) (by omega)
      simp only [decimalValue, List.foldl_append, List.foldl] at this ⊢
      rw [this, hd]
      omega

theorem toDigitsCore_no_minus (fuel : Nat) : ∀ (n : Nat) (acc : List Char), '-' ∉ acc →
    '-' ∉ Nat.toDigitsCore 10 fuel n acc := by
  induction fuel with
  | zero => intro n acc h; simpa [Nat.toDigitsCore] using h
  | succ fuel ih =>
    intro n acc h
    have hd := digitChar_ne_minus (n % 10) (Nat.mod_lt _ (by decide))
    simp only [Nat.toDigitsCore]
    split
    · simp [h, hd.symm]
    · apply ih
      simp [h, hd.symm]

/-- The decimal formatting of natural numbers is injective. -/
theorem Nat_repr_injective (a b : Nat) (hab : Nat.repr a = Nat.repr b) : a = b := by
  have h1 := decimalValue_toDigitsCore (a + 1) a (by omega)
  have h2 := decimalValue_toDigitsCore (b + 1) b (by omega)
  have hd := congrArg String.data hab
  simp only [Nat.repr, Nat.toDigits, List.asString] at hd
  rw [hd] at h1
  omega

/-- The `%d` formatting of integers is injective. -/
theorem Int_toString_injective (a b : Int) (hab : toString a = toString b) : a = b := by
  cases a with
  | ofNat m =>
    cases b with
    | ofNat n =>
      have : Nat.repr m = Nat.repr n := hab
      rw [Nat_repr_injective m n this]
    | negSucc n =>
      exfalso
      have h1 : Nat.repr m = "-" ++ Nat.repr (n + 1) := hab
      have hd := congrArg String.data h1
      have hm := toDigitsCore_no_minus (m + 1) m [] (by simp)
      simp only [Nat.repr, Nat.toDigits, List.asString, String.data_append] at hd
      rw [hd] at hm
      simp at hm
  | negSucc m =>
    cases b with
    | ofNat n =>
      exfalso
      have h1 : "-" ++ Nat.repr (m + 1) = Nat.repr n := hab
      have hd := congrArg String.data h1
      have hm := toDigitsCore_no_minus (n + 1) n [] (by simp)
      simp only [Nat.repr, Nat.toDigits, List.asString, String.data_append] at hd
      rw [← hd] at hm
      simp at hm
    | negSucc n =>
      have h1 : "-" ++ Nat.repr (m + 1) = "-" ++ Nat.repr (n + 1) := hab
      have hd := congrArg String.data h1
      simp only [String.data_append, List.append_cancel_left_eq] at hd
      have : Nat.repr (m + 1) = Nat.repr (n + 1) := String.ext hd
      have := Nat_repr_injective _ _ this
      have hmn : m = n := by omega
      rw [hmn]

/-- Distinct user ids have distinct access keys. -/
theorem accessTokenKey_injective (u v : Int) (hk : accessTokenKey u = accessTokenKey v) :
    u = v := by
  have hd := congrArg String.data hk
  simp only [accessTokenKey, String.data_append, List.append_cancel_left_eq] at hd
  exact Int_toString_injective u v (String.ext hd)

/-- Distinct user ids have distinct refresh keys. -/
theorem refreshTokenKey_injective (u v : Int) (hk : refreshTokenKey u = refreshTokenKey v) :
    u = v := by
  have hd := congrArg String.data hk
  simp only [refreshTokenKey, String.data_append, List.append_cancel_left_eq] at hd
  exact Int_toString_injective u v (String.ext hd)

theorem accessTokenKey_ne_refreshTokenKey (u v : Int) : accessTokenKey u ≠ refreshTokenKey v := by
  intro hk
  have hd := congrArg String.data hk
  simp [accessTokenKey, refreshTokenKey, String.data_append] at hd

theorem resetCodeKey_ne_accessTokenKey (email : String) (u : Int) :
    resetCodeKey email ≠ accessTokenKey u := by
  intro hk
  have hd := congrArg String.data hk
  simp [accessTokenKey, resetCodeKey, String.data_append] at hd

theorem resetCodeKey_ne_refreshTokenKey (email : String) (u : Int) :
    resetCodeKey email ≠ refreshTokenKey u := by
  intro hk
  have hd := congrArg String.data hk
  simp [refreshTokenKey, resetCodeKey, String.data_append] at hd

/-! ## Facts about the Redis model -/

theorem reachable_zero {r : Redis} {n : Nat} (hr : r.reachable (n + 1)) :
    r.faults r.calls = none := by
  simpa using hr 0 (Nat.succ_pos n)

theorem reachable_mono {r : Redis} {n m : Nat} (hr : r.reachable n) (hm : m ≤ n) :
    r.reachable m := fun i hi => hr i (lt_of_lt_of_le hi hm)

theorem reachable_step {r r1 : Redis} {n : Nat} (hr : r.reachable (n + 1))
    (hf : r1.faults = r.faults) (hc : r1.calls = r.calls + 1) : r1.reachable n := by
  intro i hi
  have := hr (i + 1) (Nat.succ_lt_succ hi)
  rw [hf, hc]
  rw [← this]
  congr 1
  omega

theorem Set_faults (r : Redis) (k v : String) (x : Int) : (r.Set k v x).2.faults = r.faults := by
  unfold Redis.Set
  split <;> rfl

theorem Set_calls (r : Redis) (k v : String) (x : Int) : (r.Set k v x).2.calls = r.calls + 1 := by
  unfold Redis.Set
  split <;> rfl

theorem Set_now (r : Redis) (k v : String) (x : Int) : (r.Set k v x).2.now = r.now := by
  unfold Redis.Set
  split <;> rfl

theorem Set_fst (r : Redis) (k v : String) (x : Int) (hf : r.faults r.calls = none) :
    (r.Set k v x).1 = none := by
  simp [Redis.Set, hf]

/-- After a write that reached the server the key is live and holds the written value. -/
theorem Set_live_self (r : Redis) (k v : String) (x : Int) (hf : r.faults r.calls = none) :
    ∃ t, (r.Set k v x).2.live k = some ⟨v, t⟩ := by
  simp only [Redis.Set, hf, Redis.live, Redis.issued, if_true]
  by_cases hx : x > 0
  · refine ⟨some (r.now + x), ?_⟩
    simp [hx]
  · by_cases hk : x = KeepTTL
    · have hK : ¬ (0 : Int) < KeepTTL := by decide
      subst hk
      simp only [gt_iff_lt, hK, if_false, if_true]
      cases hs : r.store k with
      | none => exact ⟨none, by simp⟩
      | some e =>
        cases ht : e.expireAt with
        | none => exact ⟨none, by simp [ht]⟩
        | some t =>
          by_cases hlt : r.now < t
          · exact ⟨some t, by simp [ht, hlt]⟩
          · exact ⟨none, by simp [ht, hlt]⟩
    · exact ⟨none, by simp [hx, hk]⟩

/-- A write leaves every other key as it was. -/
theorem Set_live_other (r : Redis) (k v : String) (x : Int) (k2 : String) (hk : k2 ≠ k) :
    (r.Set k v x).2.live k2 = r.live k2 := by
  unfold Redis.Set
  split
  · rfl
  · simp [Redis.live, Redis.issued, hk]

theorem Get_snd (r : Redis) (k : String) : (r.Get k).2 = r.issued := by
  unfold Redis.Get
  split
  · rfl
  · split <;> rfl

theorem Get_fst_live (r : Redis) (k : String) (e : Entry) (hf : r.faults r.calls = none)
    (hl : r.live k = some e) : (r.Get k).1 = .ok e.value := by
  simp [Redis.Get, hf, hl]

theorem Get_fst_absent (r : Redis) (k : String) (hf : r.faults r.calls = none)
    (hl : r.live k = none) : (r.Get k).1 = .error .redisNil := by
  simp [Redis.Get, hf, hl]

theorem issued_live (r : Redis) (k : String) : r.issued.live k = r.live k := rfl

theorem Del_faults (r : Redis) (k : String) : (r.Del k).2.faults = r.faults := by
  unfold Redis.Del
  split <;> rfl

theorem Del_calls (r : Redis) (k : String) : (r.Del k).2.calls = r.calls + 1 := by
  unfold Redis.Del
  split <;> rfl

theorem Del_now (r : Redis) (k : String) : (r.Del k).2.now = r.now := by
  unfold Redis.Del
  split <;> rfl

theorem Del_fst (r : Redis) (k : String) (hf : r.faults r.calls = none) : (r.Del k).1 = none := by
  simp [Redis.Del, hf]

theorem Del_live_self (r : Redis) (k : String) (hf : r.faults r.calls = none) :
    (r.Del k).2.live k = none := by
  simp [Redis.Del, hf, Redis.live, Redis.issued]

theorem Del_live_other (r : Redis) (k k2 : String) (hk : k2 ≠ k) :
    (r.Del k).2.live k2 = r.live k2 := by
  unfold Redis.Del
  split
  · rfl
  · simp [Redis.live, Redis.issued, hk]

/-- A delete that returns no error reached the server. -/
theorem Del_fst_none (r : Redis) (k : String) (hd : (r.Del k).1 = none) :
    r.faults r.calls = none := by
  unfold Redis.Del at hd
  split at hd
  · simp at hd
  · assumption

/-! ## Facts about the cache methods of the service -/

section CacheMethods

variable (h : AuthService ω) (userID : Int) (w : World ω)

/-- With the cache reachable, `StoreTokensByUserID` performs its two writes and returns `nil`. -/
theorem StoreTokensByUserID_eq (tokens : TokenMapping) (hr : w.redis.reachable 2) :
    h.StoreTokensByUserID userID tokens w =
      (none, { w with redis :=
        ((w.redis.Set (accessTokenKey userID) tokens.AccessUid
            (minutesDuration h.cfg.AccessLifetimeMinutes)).2.Set
          (refreshTokenKey userID) tokens.RefreshUid
            (minutesDuration h.cfg.RefreshLifetimeMinutes)).2 }) := by
  have h0 : w.redis.faults w.redis.calls = none := reachable_zero hr
  have hr1 := reachable_step hr (Set_faults w.redis (accessTokenKey userID) tokens.AccessUid
    (minutesDuration h.cfg.AccessLifetimeMinutes)) (Set_calls _ _ _ _)
  have h1 := reachable_zero hr1
  have e1 := Set_fst w.redis (accessTokenKey userID) tokens.AccessUid
    (minutesDuration h.cfg.AccessLifetimeMinutes) h0
  have e2 := Set_fst _ (refreshTokenKey userID) tokens.RefreshUid
    (minutesDuration h.cfg.RefreshLifetimeMinutes) h1
  unfold AuthService.StoreTokensByUserID
  generalize w.redis.Set (accessTokenKey userID) tokens.AccessUid
    (minutesDuration h.cfg.AccessLifetimeMinutes) = p1 at e1 e2 ⊢
  obtain ⟨o1, r1⟩ := p1
  simp only at e1 e2 ⊢
  subst e1
  simp only
  generalize r1.Set (refreshTokenKey userID) tokens.RefreshUid
    (minutesDuration h.cfg.RefreshLifetimeMinutes) = p2 at e2 ⊢
  obtain ⟨o2, r2⟩ := p2
  simp only at e2 ⊢
  subst e2
  rfl

/-- With the cache reachable, `DeleteTokensByUserID` performs its two deletes and returns `nil`. -/
theorem DeleteTokensByUserID_eq (hr : w.redis.reachable 2) :
    h.DeleteTokensByUserID userID w =
      (none, { w with redis :=
        ((w.redis.Del (accessTokenKey userID)).2.Del (refreshTokenKey userID)).2 }) := by
  have h0 : w.redis.faults w.redis.calls = none := reachable_zero hr
  have hr1 := reachable_step hr (Del_faults w.redis (accessTokenKey userID)) (Del_calls _ _)
  have h1 := reachable_zero hr1
  have e1 := Del_fst w.redis (accessTokenKey userID) h0
  have e2 := Del_fst _ (refreshTokenKey userID) h1
  unfold AuthService.DeleteTokensByUserID
  generalize w.redis.Del (accessTokenKey userID) = p1 at e1 e2 ⊢
  obtain ⟨o1, r1⟩ := p1
  simp only at e1 e2 ⊢
  subst e1
  simp only
  generalize r1.Del (refreshTokenKey userID) = p2 at e2 ⊢
  obtain ⟨o2, r2⟩ := p2
  simp only at e2 ⊢
  subst e2
  rfl

/-- With the cache reachable and both keys live, `GetTokensByUserID` returns their values. -/
theorem GetTokensByUserID_live (ea er : Entry) (hr : w.redis.reachable 2)
    (ha : w.redis.live (accessTokenKey userID) = some ea)
    (hb : w.redis.live (refreshTokenKey userID) = some er) :
    (h.GetTokensByUserID userID w).1 = .ok ⟨ea.value, er.value⟩ := by
  have h0 : w.redis.faults w.redis.calls = none := reachable_zero hr
  have h1 : w.redis.faults (w.redis.calls + 1) = none := hr 1 (by omega)
  have g1 := Get_fst_live w.redis (accessTokenKey userID) ea h0 ha
  have g2 := Get_fst_live w.redis.issued (refreshTokenKey userID) er h1 hb
  have s1 := Get_snd w.redis (accessTokenKey userID)
  unfold AuthService.GetTokensByUserID
  generalize w.redis.Get (accessTokenKey userID) = p1 at g1 s1 ⊢
  obtain ⟨o1, r1⟩ := p1
  simp only at g1 s1 ⊢
  subst g1 s1
  simp only
  generalize w.redis.issued.Get (refreshTokenKey userID) = p2 at g2 ⊢
  obtain ⟨o2, r2⟩ := p2
  simp only at g2 ⊢
  subst g2
  rfl

theorem reachable_after {r r1 : Redis} {n m : Nat} (hr : r.reachable (n + m))
    (hf : r1.faults = r.faults) (hc : r1.calls = r.calls + m) : r1.reachable n := by
  intro i hi
  have := hr (m + i) (by omega)
  rw [hf, hc, Nat.add_assoc]
  exact this

/-- Reading the mapping right after a successful store gives back the stored identifiers. -/
theorem GetTokensByUserID_after_store (tokens : TokenMapping) (hr : w.redis.reachable 4) :
    (h.StoreTokensByUserID userID tokens w).1 = none ∧
      (h.GetTokensByUserID userID (h.StoreTokensByUserID userID tokens w).2).1 = .ok tokens := by
  have hr2 : w.redis.reachable 2 := reachable_mono hr (by omega)
  have h0 : w.redis.faults w.redis.calls = none := reachable_zero hr2
  have hr1 := reachable_step hr2 (Set_faults w.redis (accessTokenKey userID) tokens.AccessUid
    (minutesDuration h.cfg.AccessLifetimeMinutes)) (Set_calls _ _ _ _)
  have h1 := reachable_zero hr1
  rw [StoreTokensByUserID_eq h userID w tokens hr2]
  refine ⟨rfl, ?_⟩
  obtain ⟨ta, hta⟩ := Set_live_self w.redis (accessTokenKey userID) tokens.AccessUid
    (minutesDuration h.cfg.AccessLifetimeMinutes) h0
  obtain ⟨tr, htr⟩ := Set_live_self _ (refreshTokenKey userID) tokens.RefreshUid
    (minutesDuration h.cfg.RefreshLifetimeMinutes) h1
  have hta2 := Set_live_other (w.redis.Set (accessTokenKey userID) tokens.AccessUid
    (minutesDuration h.cfg.AccessLifetimeMinutes)).2 (refreshTokenKey userID) tokens.RefreshUid
    (minutesDuration h.cfg.RefreshLifetimeMinutes) (accessTokenKey userID)
    (accessTokenKey_ne_refreshTokenKey userID userID)
  rw [hta] at hta2
  have hreach : (((w.redis.Set (accessTokenKey userID) tokens.AccessUid
      (minutesDuration h.cfg.AccessLifetimeMinutes)).2.Set (refreshTokenKey userID)
      tokens.RefreshUid (minutesDuration h.cfg.RefreshLifetimeMinutes)).2).reachable 2 := by
    apply reachable_after (show w.redis.reachable (2 + 2) from hr)
    · rw [Set_faults, Set_faults]
    · rw [Set_calls, Set_calls]
  exact GetTokensByUserID_live h userID
    ({ w with redis := ((w.redis.Set (accessTokenKey userID) tokens.AccessUid
      (minutesDuration h.cfg.AccessLifetimeMinutes)).2.Set (refreshTokenKey userID)
      tokens.RefreshUid (minutesDuration h.cfg.RefreshLifetimeMinutes)).2 } : World ω)
    ⟨tokens.AccessUid, ta⟩ ⟨tokens.RefreshUid, tr⟩ hreach hta2 htr

end CacheMethods

/-! ## Login -/

/-- Claim C1: when the user lookup succeeds, the password matches the stored hash, both
`GenerateToken` calls succeed and the cache is reachable for the two writes and the read that
follows, `Login` returns the generated token pair and `GetTokensByUserID` for the user's id, called
on the world `Login` leaves, returns exactly the two generated identifiers, whatever the cache held
before. -/
theorem C1_login_then_get_tokens (h : AuthService ω) (req : LoginRequest) (w : World ω)
    (user : User) (x1 x2 x3 : ω) (accessString accessUid refreshString refreshUid : String)
    (hlookup : h.UserServiceI.GetUserByEmail w.ext req.Email = (.ok user, x1))
    (hpw : h.CompareHashAndPassword user.Password req.Password = none)
    (hacc : h.GenerateToken x1 user.ID h.cfg.AccessLifetimeMinutes h.cfg.AccessSecret =
      (.ok (accessString, accessUid), x2))
    (href : h.GenerateToken x2 user.ID h.cfg.RefreshLifetimeMinutes h.cfg.RefreshSecret =
      (.ok (refreshString, refreshUid), x3))
    (hreach : w.redis.reachable 4) :
    (h.Login req w).1 = .ok ⟨accessString, refreshString⟩ ∧
      (h.GetTokensByUserID user.ID (h.Login req w).2).1 = .ok ⟨accessUid, refreshUid⟩ := by
  obtain ⟨hs, hg⟩ := GetTokensByUserID_after_store h user.ID
    ({ w with ext := x3 } : World ω) ⟨accessUid, refreshUid⟩ hreach
  simp only [AuthService.Login, hlookup, hpw, hacc, href]
  generalize h.StoreTokensByUserID user.ID ⟨accessUid, refreshUid⟩
    ({ w with ext := x3 } : World ω) = p at hs hg ⊢
  obtain ⟨o, w1⟩ := p
  simp only at hs hg ⊢
  subst hs
  exact ⟨rfl, hg⟩

/-- Claim C1, run on the concrete deployment: user `1` logs in over an empty cache. -/
theorem C1_login_then_get_tokens_witness :
    demoWorld.redis.reachable 4 ∧
      (demo.Login ⟨"a@b.com", "pw"⟩ demoWorld).1 =
        .ok ⟨"as:user=1:minutes=15", "rs:user=1:minutes=60"⟩ ∧
      (demo.GetTokensByUserID 1 (demo.Login ⟨"a@b.com", "pw"⟩ demoWorld).2).1 =
        .ok ⟨"uid-0", "uid-1"⟩ :=
  ⟨fun _ _ => rfl,
    C1_login_then_get_tokens demo ⟨"a@b.com", "pw"⟩ demoWorld ⟨1, "a@b.com", demoHash "pw"⟩
      ⟨[⟨1, "a@b.com", demoHash "pw"⟩], 0⟩ ⟨[⟨1, "a@b.com", demoHash "pw"⟩], 1⟩
      ⟨[⟨1, "a@b.com", demoHash "pw"⟩], 2⟩ "as:user=1:minutes=15" "uid-0"
      "rs:user=1:minutes=60" "uid-1" rfl rfl rfl rfl (fun _ _ => rfl)⟩

/-- Claim C2: for an existing user, `Login` with a password that the hash comparison rejects
returns the comparison's error, hence no token pair, and the Redis state after the call is the
state before it: every key holds the same entry, in particular the user's two identifier keys. -/
theorem C2_login_wrong_password_keeps_cache (h : AuthService ω) (req : LoginRequest) (w : World ω)
    (user : User) (x1 : ω) (err : GoError)
    (hlookup : h.UserServiceI.GetUserByEmail w.ext req.Email = (.ok user, x1))
    (hpw : h.CompareHashAndPassword user.Password req.Password = some err) :
    (h.Login req w).1 = .error err ∧ (h.Login req w).2.redis = w.redis ∧
      (∀ key, (h.Login req w).2.redis.live key = w.redis.live key) ∧
      (h.Login req w).2.redis.live (accessTokenKey user.ID) = w.redis.live (accessTokenKey user.ID) ∧
      (h.Login req w).2.redis.live (refreshTokenKey user.ID) =
        w.redis.live (refreshTokenKey user.ID) := by
  simp [AuthService.Login, hlookup, hpw]

/-- Claim C2, run on the concrete deployment: user `1` logs in with the password `"bad"`. -/
theorem C2_login_wrong_password_keeps_cache_witness :
    (demo.Login ⟨"a@b.com", "bad"⟩ demoWorld).1 = .error ErrMismatchedHashAndPassword ∧
      (demo.Login ⟨"a@b.com", "bad"⟩ demoWorld).2.redis = demoWorld.redis ∧
      (∀ key, (demo.Login ⟨"a@b.com", "bad"⟩ demoWorld).2.redis.live key =
        demoWorld.redis.live key) ∧
      (demo.Login ⟨"a@b.com", "bad"⟩ demoWorld).2.redis.live (accessTokenKey 1) =
        demoWorld.redis.live (accessTokenKey 1) ∧
      (demo.Login ⟨"a@b.com", "bad"⟩ demoWorld).2.redis.live (refreshTokenKey 1) =
        demoWorld.redis.live (refreshTokenKey 1) :=
  C2_login_wrong_password_keeps_cache demo ⟨"a@b.com", "bad"⟩ demoWorld
    ⟨1, "a@b.com", demoHash "pw"⟩ demoWorld.ext ErrMismatchedHashAndPassword rfl rfl

/-- Claim C3 fails as stated: on the concrete deployment the error `Login` returns for an
unregistered email is not the error it returns for a registered email with a wrong password, so the
result tells the caller whether the email is registered. -/
theorem C3_login_errors_distinguishable :
    (demo.Login ⟨"nobody@b.com", "pw"⟩ demoWorld).1 =
        .error (.text "user with this email not found") ∧
      (demo.Login ⟨"a@b.com", "bad"⟩ demoWorld).1 = .error ErrMismatchedHashAndPassword ∧
      (demo.Login ⟨"nobody@b.com", "pw"⟩ demoWorld).1 ≠
        (demo.Login ⟨"a@b.com", "bad"⟩ demoWorld).1 := by
  have h1 : (demo.Login ⟨"nobody@b.com", "pw"⟩ demoWorld).1 =
      .error (.text "user with this email not found") := rfl
  have h2 : (demo.Login ⟨"a@b.com", "bad"⟩ demoWorld).1 =
      .error ErrMismatchedHashAndPassword := rfl
  refine ⟨h1, h2, ?_⟩
  rw [h1, h2]
  intro hEq
  have hText := GoError.text.inj (Except.error.inj hEq)
  exact absurd hText (by decide)

/-- Claim C3, amended: when the email lookup fails, `Login` returns the fixed error
`user with this email not found`, whatever error the lookup gave, and does not touch the cache;
for a registered user whose password the hash comparison rejects it returns the comparison's own
error, so the two results coincide only if that error is the same `user with this email not found`
error. -/
theorem C3_login_unknown_email_error (h : AuthService ω) (req : LoginRequest) (w : World ω)
    (lookupErr : GoError) (x1 : ω)
    (hlookup : h.UserServiceI.GetUserByEmail w.ext req.Email = (.error lookupErr, x1)) :
    (h.Login req w).1 = .error (errorsNew "user with this email not found") ∧
      (h.Login req w).2.redis = w.redis ∧
      ∀ (req2 : LoginRequest) (w2 : World ω) (user : User) (x2 : ω) (err : GoError),
        h.UserServiceI.GetUserByEmail w2.ext req2.Email = (.ok user, x2) →
        h.CompareHashAndPassword user.Password req2.Password = some err →
        (h.Login req2 w2).1 = .error err ∧
          ((h.Login req w).1 = (h.Login req2 w2).1 ↔
            err = errorsNew "user with this email not found") := by
  have hA : (h.Login req w).1 = .error (errorsNew "user with this email not found") := by
    simp [AuthService.Login, hlookup]
  refine ⟨hA, by simp [AuthService.Login, hlookup], ?_⟩
  intro req2 w2 user x2 err hl2 hp2
  have hB : (h.Login req2 w2).1 = .error err := by
    simp [AuthService.Login, hl2, hp2]
  refine ⟨hB, ?_⟩
  rw [hA, hB]
  constructor
  · intro hEq
    exact (Except.error.inj hEq).symm
  · intro hEq
    rw [hEq]

/-- Claim C3 (amended), run on the concrete deployment with an unregistered email. -/
theorem C3_login_unknown_email_error_witness :
    (demo.Login ⟨"nobody@b.com", "pw"⟩ demoWorld).1 =
        .error (errorsNew "user with this email not found") ∧
      (demo.Login ⟨"nobody@b.com", "pw"⟩ demoWorld).2.redis = demoWorld.redis :=
  ⟨(C3_login_unknown_email_error demo ⟨"nobody@b.com", "pw"⟩ demoWorld
      (.text "record not found") demoWorld.ext rfl).1,
    (C3_login_unknown_email_error demo ⟨"nobody@b.com", "pw"⟩ demoWorld
      (.text "record not found") demoWorld.ext rfl).2.1⟩

/-! ## Token rotation -/

/-- A mapping returned by `GetTokensByUserID` is made of the values the two keys hold. -/
theorem GetTokensByUserID_ok_inv (h : AuthService ω) (userID : Int) (w : World ω)
    (m : TokenMapping) (hg : (h.GetTokensByUserID userID w).1 = .ok m) :
    (∃ ea, w.redis.live (accessTokenKey userID) = some ea ∧ ea.value = m.AccessUid) ∧
      ∃ er, w.redis.live (refreshTokenKey userID) = some er ∧ er.value = m.RefreshUid := by
  unfold AuthService.GetTokensByUserID at hg
  have s1 := Get_snd w.redis (accessTokenKey userID)
  have d1 : (w.redis.Get (accessTokenKey userID)).1 =
      (w.redis.Get (accessTokenKey userID)).1 := rfl
  conv at d1 => rhs; unfold Redis.Get
  generalize w.redis.Get (accessTokenKey userID) = p1 at hg s1 d1
  obtain ⟨o1, r1⟩ := p1
  simp only at s1 d1
  subst s1
  cases o1 with
  | error e => simp at hg
  | ok a =>
    simp only at hg
    have d2 : (w.redis.issued.Get (refreshTokenKey userID)).1 =
        (w.redis.issued.Get (refreshTokenKey userID)).1 := rfl
    conv at d2 => rhs; unfold Redis.Get
    generalize w.redis.issued.Get (refreshTokenKey userID) = p2 at hg d2
    obtain ⟨o2, r2⟩ := p2
    cases o2 with
    | error e => simp at hg
    | ok b =>
      simp only [Except.ok.injEq] at hg d2
      subst hg
      constructor
      · cases hf : w.redis.faults w.redis.calls with
        | some msg => simp [hf] at d1
        | none =>
          cases hl : w.redis.live (accessTokenKey userID) with
          | none => simp [hf, hl] at d1
          | some ea =>
            simp [hf, hl] at d1
            exact ⟨ea, rfl, d1.symm⟩
      · cases hf : w.redis.issued.faults w.redis.issued.calls with
        | some msg => simp [hf] at d2
        | none =>
          have hli := issued_live w.redis (refreshTokenKey userID)
          cases hl : w.redis.live (refreshTokenKey userID) with
          | none =>
            rw [hl] at hli
            simp [hf, hli] at d2
          | some er =>
            rw [hl] at hli
            simp [hf, hli] at d2
            exact ⟨er, rfl, d2.symm⟩

/-- Claim C4: when both `GenerateToken` calls succeed and the cache is reachable (two deletes, two
writes, then the read), `GetTokenPair` returns the new pair and `GetTokensByUserID` called right
after returns the two newly generated identifiers; if moreover these identifiers are fresh, that
is, held by no key of the cache before the call, the new mapping shares no identifier with the
mapping that `GetTokensByUserID` returned before the rotation. -/
theorem C4_rotation_stores_new_mapping (h : AuthService ω) (userID : Int) (w : World ω)
    (x1 x2 : ω) (accessToken accessUid refreshToken refreshUid : String)
    (hacc : h.GenerateToken w.ext userID h.cfg.AccessLifetimeMinutes h.cfg.AccessSecret =
      (.ok (accessToken, accessUid), x1))
    (href : h.GenerateToken x1 userID h.cfg.RefreshLifetimeMinutes h.cfg.RefreshSecret =
      (.ok (refreshToken, refreshUid), x2))
    (hreach : w.redis.reachable 6) :
    (h.GetTokenPair userID w).1 = .ok ⟨accessToken, refreshToken⟩ ∧
      (h.GetTokensByUserID userID (h.GetTokenPair userID w).2).1 = .ok ⟨accessUid, refreshUid⟩ ∧
      ((∀ key e, w.redis.live key = some e → e.value ≠ accessUid ∧ e.value ≠ refreshUid) →
        ∀ old new : TokenMapping, (h.GetTokensByUserID userID w).1 = .ok old →
          (h.GetTokensByUserID userID (h.GetTokenPair userID w).2).1 = .ok new →
          new.AccessUid ≠ old.AccessUid ∧ new.RefreshUid ≠ old.RefreshUid ∧
            new.AccessUid ≠ old.RefreshUid ∧ new.RefreshUid ≠ old.AccessUid) := by
  have hr2 : w.redis.reachable 2 := reachable_mono hreach (by omega)
  have hr4 : ((w.redis.Del (accessTokenKey userID)).2.Del (refreshTokenKey userID)).2.reachable 4 := by
    apply reachable_after (show w.redis.reachable (4 + 2) from hreach)
    · rw [Del_faults, Del_faults]
    · rw [Del_calls, Del_calls]
  obtain ⟨hs, hg⟩ := GetTokensByUserID_after_store h userID
    ({ ext := x2, redis := ((w.redis.Del (accessTokenKey userID)).2.Del
      (refreshTokenKey userID)).2, logs := w.logs } : World ω) ⟨accessUid, refreshUid⟩ hr4
  have hpair : (h.GetTokenPair userID w).1 = .ok ⟨accessToken, refreshToken⟩ ∧
      (h.GetTokensByUserID userID (h.GetTokenPair userID w).2).1 =
        .ok ⟨accessUid, refreshUid⟩ := by
    simp only [AuthService.GetTokenPair, DeleteTokensByUserID_eq h userID w hr2, hacc, href]
    generalize h.StoreTokensByUserID userID ⟨accessUid, refreshUid⟩
      ({ ext := x2, redis := ((w.redis.Del (accessTokenKey userID)).2.Del
        (refreshTokenKey userID)).2, logs := w.logs } : World ω) = p at hs hg ⊢
    obtain ⟨o, w1⟩ := p
    simp only at hs hg ⊢
    subst hs
    exact ⟨rfl, hg⟩
  refine ⟨hpair.1, hpair.2, ?_⟩
  intro hfresh old new hold hnew
  rw [hpair.2] at hnew
  simp only [Except.ok.injEq] at hnew
  subst hnew
  obtain ⟨⟨ea, hea, hva⟩, ⟨er, her, hvr⟩⟩ := GetTokensByUserID_ok_inv h userID w old hold
  have fa := hfresh _ _ hea
  have fr := hfresh _ _ her
  rw [hva] at fa
  rw [hvr] at fr
  exact ⟨fun e => fa.1 e.symm, fun e => fr.2 e.symm, fun e => fr.1 e.symm, fun e => fa.2 e.symm⟩

/-- Every value held by the cache of `sessionWorld` is one of the two identifiers of the login. -/
theorem sessionWorld_values (key : String) (e : Entry)
    (hl : sessionWorld.redis.live key = some e) : e.value = "uid-0" ∨ e.value = "uid-1" := by
  have hstore : sessionWorld.redis.store = fun k =>
      if k = "refresh-1" then some ⟨"uid-1", some 3600000000000⟩
      else if k = "access-1" then some ⟨"uid-0", some 900000000000⟩ else none := rfl
  unfold Redis.live at hl
  rw [hstore] at hl
  beta_reduce at hl
  by_cases h1 : key = "refresh-1"
  · rw [if_pos h1] at hl
    simp only at hl
    split at hl
    · cases hl
      exact Or.inr rfl
    · cases hl
  · rw [if_neg h1] at hl
    by_cases h2 : key = "access-1"
    · rw [if_pos h2] at hl
      simp only at hl
      split at hl
      · cases hl
        exact Or.inl rfl
      · cases hl
    · rw [if_neg h2] at hl
      cases hl

/-- The identifiers `uid-2` and `uid-3` are held by no key of `sessionWorld`. -/
theorem sessionWorld_fresh (key : String) (e : Entry)
    (hl : sessionWorld.redis.live key = some e) : e.value ≠ "uid-2" ∧ e.value ≠ "uid-3" := by
  rcases sessionWorld_values key e hl with hv | hv <;> rw [hv] <;> decide

/-- Claim C4, run on the concrete deployment: user `1`, holding the session `uid-0`, `uid-1`,
rotates the tokens and the cache then holds `uid-2`, `uid-3`. -/
theorem C4_rotation_stores_new_mapping_witness :
    sessionWorld.redis.reachable 6 ∧
      (demo.GetTokensByUserID 1 sessionWorld).1 = .ok ⟨"uid-0", "uid-1"⟩ ∧
      (demo.GetTokenPair 1 sessionWorld).1 =
        .ok ⟨"as:user=1:minutes=15", "rs:user=1:minutes=60"⟩ ∧
      (demo.GetTokensByUserID 1 (demo.GetTokenPair 1 sessionWorld).2).1 =
        .ok ⟨"uid-2", "uid-3"⟩ ∧
      (("uid-2" : String) ≠ "uid-0" ∧ ("uid-3" : String) ≠ "uid-1" ∧
        ("uid-2" : String) ≠ "uid-1" ∧ ("uid-3" : String) ≠ "uid-0") :=
  have hC := C4_rotation_stores_new_mapping demo 1 sessionWorld
    ⟨[⟨1, "a@b.com", demoHash "pw"⟩], 3⟩ ⟨[⟨1, "a@b.com", demoHash "pw"⟩], 4⟩
    "as:user=1:minutes=15" "uid-2" "rs:user=1:minutes=60" "uid-3" rfl rfl (fun _ _ => rfl)
  ⟨fun _ _ => rfl, rfl, hC.1, hC.2.1,
    hC.2.2 sessionWorld_fresh ⟨"uid-0", "uid-1"⟩ ⟨"uid-2", "uid-3"⟩ rfl hC.2.1⟩

/-! ## Logout -/

/-- The method `Logout` hands back the result of `DeleteTokensByUserID`. -/
theorem Logout_eq (h : AuthService ω) (userID : Int) (w : World ω) :
    h.Logout userID w = h.DeleteTokensByUserID userID w := by
  unfold AuthService.Logout
  generalize h.DeleteTokensByUserID userID w = p
  obtain ⟨o, w1⟩ := p
  cases o <;> rfl

/-- When `DeleteTokensByUserID` returns `nil`, both of its deletes reached the server. -/
theorem DeleteTokensByUserID_none_inv (h : AuthService ω) (userID : Int) (w : World ω)
    (hd : (h.DeleteTokensByUserID userID w).1 = none) : w.redis.reachable 2 := by
  cases hf0 : w.redis.faults w.redis.calls with
  | some m => simp [AuthService.DeleteTokensByUserID, Redis.Del, hf0] at hd
  | none =>
    cases hf1 : w.redis.faults (w.redis.calls + 1) with
    | some m => simp [AuthService.DeleteTokensByUserID, Redis.Del, hf0, hf1, Redis.issued] at hd
    | none =>
      intro i hi
      interval_cases i
      · exact hf0
      · exact hf1

/-- With the access key absent, `GetTokensByUserID` returns an error, which is `redis.Nil` when
the read reaches the server. -/
theorem GetTokensByUserID_absent (h : AuthService ω) (userID : Int) (w : World ω)
    (hl : w.redis.live (accessTokenKey userID) = none) :
    ∃ err, (h.GetTokensByUserID userID w).1 = .error err ∧
      (w.redis.reachable 1 → err = .redisNil) := by
  cases hf0 : w.redis.faults w.redis.calls with
  | some m =>
    refine ⟨.text m, by simp [AuthService.GetTokensByUserID, Redis.Get, hf0], ?_⟩
    intro hr
    have := reachable_zero hr
    rw [hf0] at this
    cases this
  | none =>
    exact ⟨.redisNil, by simp [AuthService.GetTokensByUserID, Redis.Get, hf0, hl], fun _ => rfl⟩

/-- Claim C5: when the cache is reachable and neither the access key nor the refresh key of the
user is held, `Logout` returns `nil` and every key of the cache holds what it held before (the
key table itself is unchanged when the two keys are not stored at all); and after any `Logout`
that returned `nil`, `GetTokensByUserID` for that user returns an error, never a mapping, the
error being `redis.Nil` (no session) when the read reaches the server. -/
theorem C5_logout_idempotent (h : AuthService ω) (userID : Int) (w : World ω) :
    (w.redis.reachable 2 → w.redis.live (accessTokenKey userID) = none →
      w.redis.live (refreshTokenKey userID) = none →
        (h.Logout userID w).1 = none ∧
        (∀ key, (h.Logout userID w).2.redis.live key = w.redis.live key) ∧
        (h.Logout userID w).2.redis.now = w.redis.now ∧
        (h.Logout userID w).2.ext = w.ext ∧
        (w.redis.store (accessTokenKey userID) = none →
          w.redis.store (refreshTokenKey userID) = none →
          (h.Logout userID w).2.redis.store = w.redis.store)) ∧
    ((h.Logout userID w).1 = none →
      ∃ err, (h.GetTokensByUserID userID (h.Logout userID w).2).1 = .error err ∧
        ((h.Logout userID w).2.redis.reachable 1 → err = .redisNil)) := by
  rw [Logout_eq]
  constructor
  · intro hr ha hb
    rw [DeleteTokensByUserID_eq h userID w hr]
    have h0 := reachable_zero hr
    have h1 := reachable_zero (reachable_step hr (Del_faults w.redis (accessTokenKey userID))
      (Del_calls _ _))
    refine ⟨rfl, ?_, ?_, rfl, ?_⟩
    · intro key
      show ((w.redis.Del (accessTokenKey userID)).2.Del (refreshTokenKey userID)).2.live key =
        w.redis.live key
      by_cases hkr : key = refreshTokenKey userID
      · rw [hkr, Del_live_self _ _ h1, hb]
      · rw [Del_live_other _ _ _ hkr]
        by_cases hka : key = accessTokenKey userID
        · rw [hka, Del_live_self _ _ h0, ha]
        · rw [Del_live_other _ _ _ hka]
    · show ((w.redis.Del (accessTokenKey userID)).2.Del (refreshTokenKey userID)).2.now =
        w.redis.now
      rw [Del_now, Del_now]
    · intro hsa hsb
      funext key
      simp only [Redis.Del, h0, Redis.issued]
      have h1x : w.redis.faults (w.redis.calls + 1) = none := hr 1 (by omega)
      simp only [h1x]
      by_cases hkr : key = refreshTokenKey userID
      · simp [hkr, hsb]
      · by_cases hka : key = accessTokenKey userID
        · simp [hka, hsa]
        · simp [hkr, hka]
  · intro hd
    have hr := DeleteTokensByUserID_none_inv h userID w hd
    have h0 := reachable_zero hr
    apply GetTokensByUserID_absent
    rw [DeleteTokensByUserID_eq h userID w hr]
    show ((w.redis.Del (accessTokenKey userID)).2.Del (refreshTokenKey userID)).2.live
      (accessTokenKey userID) = none
    rw [Del_live_other _ _ _ (accessTokenKey_ne_refreshTokenKey userID userID),
      Del_live_self _ _ h0]

/-- Claim C5, run on the concrete deployment: user `1` logs out of an empty cache, and logs out
of the cache that holds a session. -/
theorem C5_logout_idempotent_witness :
    ((demo.Logout 1 demoWorld).1 = none ∧
      (∀ key, (demo.Logout 1 demoWorld).2.redis.live key = demoWorld.redis.live key) ∧
      (demo.Logout 1 demoWorld).2.redis.now = demoWorld.redis.now ∧
      (demo.Logout 1 demoWorld).2.ext = demoWorld.ext ∧
      (demo.Logout 1 demoWorld).2.redis.store = demoWorld.redis.store) ∧
    ∃ err, (demo.GetTokensByUserID 1 (demo.Logout 1 sessionWorld).2).1 = .error err ∧
      ((demo.Logout 1 sessionWorld).2.redis.reachable 1 → err = .redisNil) :=
  have hA := (C5_logout_idempotent demo 1 demoWorld).1 (fun _ _ => rfl) rfl rfl
  ⟨⟨hA.1, hA.2.1, hA.2.2.1, hA.2.2.2.1, hA.2.2.2.2 rfl rfl⟩,
    (C5_logout_idempotent demo 1 sessionWorld).2 rfl⟩

/-! ## Password reset codes -/

theorem resetCodeTTL_eq : resetCodeTTL = 10 * Minute := by decide

/-- A write with a positive expiration that reached the server stores the value with the expiry
instant `now + expiration`. -/
theorem Set_store_self_pos (r : Redis) (k v : String) (x : Int)
    (hf : r.faults r.calls = none) (hx : 0 < x) :
    (r.Set k v x).2.store k = some ⟨v, some (r.now + x)⟩ := by
  simp [Redis.Set, hf, Redis.issued, hx]

/-- Claim C6: with the cache reachable, `StoreResetCode email code` returns `nil` whatever was
stored for the email before, and in any later world in which the key still holds what that call
wrote and `d` nanoseconds have passed, `GetResetCodeByUserEmail email` returns `code` when `d` is
less than 10 minutes and the error `invalid or expired reset code` once `d` has reached
10 minutes. -/
theorem C6_reset_code_roundtrip (h : AuthService ω) (email code : String) (w : World ω)
    (hr : w.redis.reachable 1) :
    (h.StoreResetCode email code w).1 = none ∧
      ∀ (w2 : World ω) (d : Nat),
        w2.redis.store (resetCodeKey email) =
          (h.StoreResetCode email code w).2.redis.store (resetCodeKey email) →
        w2.redis.now = w.redis.now + d →
        w2.redis.reachable 1 →
        ((d : Int) < 10 * Minute → (h.GetResetCodeByUserEmail email w2).1 = .ok code) ∧
        (10 * Minute ≤ (d : Int) →
          (h.GetResetCodeByUserEmail email w2).1 =
            .error (errorsNew "invalid or expired reset code")) := by
  have h0 := reachable_zero hr
  have hpos : 0 < resetCodeTTL := by decide
  have hfst := Set_fst w.redis (resetCodeKey email) code resetCodeTTL h0
  have hst := Set_store_self_pos w.redis (resetCodeKey email) code resetCodeTTL h0 hpos
  have hS : h.StoreResetCode email code w =
      (none, { w with redis := (w.redis.Set (resetCodeKey email) code resetCodeTTL).2 }) := by
    unfold AuthService.StoreResetCode
    generalize w.redis.Set (resetCodeKey email) code resetCodeTTL = p at hfst
    obtain ⟨o, r1⟩ := p
    simp only at hfst
    subst hfst
    rfl
  rw [hS]
  refine ⟨rfl, ?_⟩
  intro w2 d hkey hnow hr2
  have h2 := reachable_zero hr2
  have hkey2 : w2.redis.store (resetCodeKey email) =
      some ⟨code, some (w.redis.now + 10 * Minute)⟩ := by
    rw [hkey]
    show (w.redis.Set (resetCodeKey email) code resetCodeTTL).2.store (resetCodeKey email) = _
    rw [hst, resetCodeTTL_eq]
  constructor
  · intro hd
    have hlt : w2.redis.now < w.redis.now + 10 * Minute := by omega
    simp [AuthService.GetResetCodeByUserEmail, Redis.Get, Redis.live, h2, hkey2, hlt]
  · intro hd
    have hge : ¬ w2.redis.now < w.redis.now + 10 * Minute := by omega
    simp [AuthService.GetResetCodeByUserEmail, Redis.Get, Redis.live, h2, hkey2, hge]

/-- Claim C6, run on the concrete deployment: the code stored at instant `0` is read back one
nanosecond before the 10 minutes are over and is gone when they are over. -/
theorem C6_reset_code_roundtrip_witness :
    (demo.StoreResetCode "a@b.com" "123456" demoWorld).1 = none ∧
      (demo.GetResetCodeByUserEmail "a@b.com" (resetWorld.later 599999999999)).1 =
        .ok "123456" ∧
      (demo.GetResetCodeByUserEmail "a@b.com" (resetWorld.later 600000000000)).1 =
        .error (errorsNew "invalid or expired reset code") :=
  have hC := C6_reset_code_roundtrip demo "a@b.com" "123456" demoWorld (fun _ _ => rfl)
  ⟨hC.1,
    (hC.2 (resetWorld.later 599999999999) 599999999999 rfl rfl (fun _ _ => rfl)).1 (by decide),
    (hC.2 (resetWorld.later 600000000000) 600000000000 rfl rfl (fun _ _ => rfl)).2 (by decide)⟩

/-- Claim C7: when the cache is reachable and the key of the request's email holds a reset code
that differs from the supplied one, `SubmitResetCode` returns the error `invalid reset code`,
leaves the state of the credential store and the keys of the cache as they were, and its outcome
does not depend on the user service at all: no method of `UserServiceI`, in particular
`UpdateUserPasswordById`, is called. -/
theorem C7_submit_wrong_reset_code (h : AuthService ω) (req : PasswordResetRequest) (w : World ω)
    (e : Entry) (hr : w.redis.reachable 1)
    (hl : w.redis.live (resetCodeKey req.Email) = some e) (hne : e.value ≠ req.ResetCode) :
    (h.SubmitResetCode req w).1 = some (errorsNew "invalid reset code") ∧
      (h.SubmitResetCode req w).2.ext = w.ext ∧
      (h.SubmitResetCode req w).2.redis.store = w.redis.store ∧
      ∀ us : UserServiceI ω,
        ({ h with UserServiceI := us } : AuthService ω).SubmitResetCode req w =
          h.SubmitResetCode req w := by
  have h0 := reachable_zero hr
  simp [AuthService.SubmitResetCode, AuthService.GetResetCodeByUserEmail, Redis.Get, h0, hl, hne,
    Redis.issued]

/-- Claim C7, run on the concrete deployment: the code `123456` is stored for `a@b.com` and the
request supplies `000000`. -/
theorem C7_submit_wrong_reset_code_witness :
    (demo.SubmitResetCode ⟨"a@b.com", "000000", "newpw"⟩ resetWorld).1 =
        some (errorsNew "invalid reset code") ∧
      (demo.SubmitResetCode ⟨"a@b.com", "000000", "newpw"⟩ resetWorld).2.ext = resetWorld.ext ∧
      (demo.SubmitResetCode ⟨"a@b.com", "000000", "newpw"⟩ resetWorld).2.redis.store =
        resetWorld.redis.store :=
  have hC := C7_submit_wrong_reset_code demo ⟨"a@b.com", "000000", "newpw"⟩ resetWorld
    ⟨"123456", some 600000000000⟩ (fun _ _ => rfl) rfl (by decide)
  ⟨hC.1, hC.2.1, hC.2.2.1⟩

/-! ## Password change -/

/-- Claim C8: when the user lookup succeeds, the old password matches the stored hash, the hash
update and both `GenerateToken` calls succeed and the cache is reachable (two deletes, two writes,
then the read), `ChangePassword` returns the new token pair and the mapping read for the user right
after is exactly the two new identifiers; if moreover these identifiers are fresh, that is, held
by no key of the cache before the call, neither identifier of the session stored before the change
occurs in the stored mapping any more. -/
theorem C8_change_password_replaces_session (h : AuthService ω) (req : ChangePasswordRequest)
    (cfg : Config) (userID : Int) (w : World ω) (user : User) (x1 x2 x3 x4 : ω)
    (accessString accessUid refreshString refreshUid : String)
    (hlookup : h.UserServiceI.GetUserByID w.ext userID = (.ok user, x1))
    (hpw : h.CompareHashAndPassword user.Password req.OldPassword = none)
    (hupd : h.UserServiceI.UpdateUserPasswordById x1 user.ID req.NewPassword = (none, x2))
    (hacc : h.GenerateToken x2 user.ID cfg.AccessLifetimeMinutes cfg.AccessSecret =
      (.ok (accessString, accessUid), x3))
    (href : h.GenerateToken x3 user.ID cfg.RefreshLifetimeMinutes cfg.RefreshSecret =
      (.ok (refreshString, refreshUid), x4))
    (hreach : w.redis.reachable 6) :
    (h.ChangePassword req cfg userID w).1 = .ok ⟨accessString, refreshString⟩ ∧
      (h.GetTokensByUserID user.ID (h.ChangePassword req cfg userID w).2).1 =
        .ok ⟨accessUid, refreshUid⟩ ∧
      ((∀ key e, w.redis.live key = some e → e.value ≠ accessUid ∧ e.value ≠ refreshUid) →
        ∀ old new : TokenMapping, (h.GetTokensByUserID user.ID w).1 = .ok old →
          (h.GetTokensByUserID user.ID (h.ChangePassword req cfg userID w).2).1 = .ok new →
          old.AccessUid ≠ new.AccessUid ∧ old.RefreshUid ≠ new.RefreshUid ∧
            old.AccessUid ≠ new.RefreshUid ∧ old.RefreshUid ≠ new.AccessUid) := by
  have hr2 : w.redis.reachable 2 := reachable_mono hreach (by omega)
  have hr4 : ((w.redis.Del (accessTokenKey user.ID)).2.Del
      (refreshTokenKey user.ID)).2.reachable 4 := by
    apply reachable_after (show w.redis.reachable (4 + 2) from hreach)
    · rw [Del_faults, Del_faults]
    · rw [Del_calls, Del_calls]
  obtain ⟨hs, hg⟩ := GetTokensByUserID_after_store h user.ID
    ({ ext := x4, redis := ((w.redis.Del (accessTokenKey user.ID)).2.Del
      (refreshTokenKey user.ID)).2, logs := w.logs } : World ω) ⟨accessUid, refreshUid⟩ hr4
  have hdel := DeleteTokensByUserID_eq h user.ID ({ w with ext := x4 } : World ω) hr2
  have hpair : (h.ChangePassword req cfg userID w).1 = .ok ⟨accessString, refreshString⟩ ∧
      (h.GetTokensByUserID user.ID (h.ChangePassword req cfg userID w).2).1 =
        .ok ⟨accessUid, refreshUid⟩ := by
    simp only [AuthService.ChangePassword, hlookup, hpw, hupd, hacc, href, hdel]
    generalize h.StoreTokensByUserID user.ID ⟨accessUid, refreshUid⟩
      ({ ext := x4, redis := ((w.redis.Del (accessTokenKey user.ID)).2.Del
        (refreshTokenKey user.ID)).2, logs := w.logs } : World ω) = p at hs hg ⊢
    obtain ⟨o, w1⟩ := p
    simp only at hs hg ⊢
    subst hs
    exact ⟨rfl, hg⟩
  refine ⟨hpair.1, hpair.2, ?_⟩
  intro hfresh old new hold hnew
  rw [hpair.2] at hnew
  simp only [Except.ok.injEq] at hnew
  subst hnew
  obtain ⟨⟨ea, hea, hva⟩, ⟨er, her, hvr⟩⟩ := GetTokensByUserID_ok_inv h user.ID w old hold
  have fa := hfresh _ _ hea
  have fr := hfresh _ _ her
  rw [hva] at fa
  rw [hvr] at fr
  exact ⟨fa.1, fr.2, fa.2, fr.1⟩

/-- Claim C8, run on the concrete deployment: user `1`, holding the session `uid-0`, `uid-1`,
changes the password `"pw"` to `"new"`. -/
theorem C8_change_password_replaces_session_witness :
    (demo.GetTokensByUserID 1 sessionWorld).1 = .ok ⟨"uid-0", "uid-1"⟩ ∧
      (demo.ChangePassword ⟨"pw", "new"⟩ demoCfg 1 sessionWorld).1 =
        .ok ⟨"as:user=1:minutes=15", "rs:user=1:minutes=60"⟩ ∧
      (demo.GetTokensByUserID 1 (demo.ChangePassword ⟨"pw", "new"⟩ demoCfg 1 sessionWorld).2).1 =
        .ok ⟨"uid-2", "uid-3"⟩ ∧
      (("uid-0" : String) ≠ "uid-2" ∧ ("uid-1" : String) ≠ "uid-3" ∧
        ("uid-0" : String) ≠ "uid-3" ∧ ("uid-1" : String) ≠ "uid-2") :=
  have hC := C8_change_password_replaces_session demo ⟨"pw", "new"⟩ demoCfg 1 sessionWorld
    ⟨1, "a@b.com", demoHash "pw"⟩
    ⟨[⟨1, "a@b.com", demoHash "pw"⟩], 2⟩ ⟨[⟨1, "a@b.com", demoHash "new"⟩], 2⟩
    ⟨[⟨1, "a@b.com", demoHash "new"⟩], 3⟩ ⟨[⟨1, "a@b.com", demoHash "new"⟩], 4⟩
    "as:user=1:minutes=15" "uid-2" "rs:user=1:minutes=60" "uid-3"
    rfl rfl rfl rfl rfl (fun _ _ => rfl)
  ⟨rfl, hC.1, hC.2.1,
    hC.2.2 sessionWorld_fresh ⟨"uid-0", "uid-1"⟩ ⟨"uid-2", "uid-3"⟩ rfl hC.2.1⟩

/-! ## Password reset initiation -/

/-- Claim C9 fails as stated: on the concrete deployment a failed user lookup is reported with a
message that says the user was not found and differs from the message for a failed mail dispatch,
and a failed cache write is reported with the Redis client's own error text. -/
theorem C9_reset_initiation_errors_differ :
    (demo.InitiatePasswordReset ⟨"nobody@b.com"⟩ demoWorld).1 =
        some (.text "failed to initiate password reset: user not found") ∧
      (demoMailDown.InitiatePasswordReset ⟨"a@b.com"⟩ demoWorld).1 =
        some (.text "failed to initiate password reset: internal server error") ∧
      (demo.InitiatePasswordReset ⟨"a@b.com"⟩ cacheDownWorld).1 =
        some (.text "dial tcp 127.0.0.1:6379: connect: connection refused") ∧
      (demo.InitiatePasswordReset ⟨"nobody@b.com"⟩ demoWorld).1 ≠
        (demoMailDown.InitiatePasswordReset ⟨"a@b.com"⟩ demoWorld).1 := by
  have h1 : (demo.InitiatePasswordReset ⟨"nobody@b.com"⟩ demoWorld).1 =
      some (.text "failed to initiate password reset: user not found") := rfl
  have h2 : (demoMailDown.InitiatePasswordReset ⟨"a@b.com"⟩ demoWorld).1 =
      some (.text "failed to initiate password reset: internal server error") := rfl
  refine ⟨h1, h2, rfl, ?_⟩
  rw [h1, h2]
  decide

/-- Claim C9, amended: a failed user lookup is reported with the fixed message
`failed to initiate password reset: user not found` and, once the user is found and the reset
code is stored, a failed mail dispatch is reported with the fixed message
`failed to initiate password reset: internal server error`; neither message depends on the error
the collaborator returned. -/
theorem C9_reset_initiation_fixed_messages (h : AuthService ω) (req : PasswordResetEmailRequest)
    (w : World ω) :
    (∀ (err : GoError) (x1 : ω),
      h.UserServiceI.GetUserByEmail w.ext req.Email = (.error err, x1) →
      (h.InitiatePasswordReset req w).1 =
        some (errorsNew "failed to initiate password reset: user not found")) ∧
    (∀ (user : User) (x1 x2 x3 : ω) (resetCode : String) (err : GoError),
      h.UserServiceI.GetUserByEmail w.ext req.Email = (.ok user, x1) →
      h.GenerateResetCode x1 = (resetCode, x2) →
      w.redis.reachable 1 →
      h.SendResetCodeEmail x2 req.Email resetCode h.cfg = (some err, x3) →
      (h.InitiatePasswordReset req w).1 =
        some (errorsNew "failed to initiate password reset: internal server error")) := by
  constructor
  · intro err x1 hlookup
    simp [AuthService.InitiatePasswordReset, hlookup]
  · intro user x1 x2 x3 resetCode err hlookup hcode hr hsend
    have h0 := reachable_zero hr
    simp [AuthService.InitiatePasswordReset, hlookup, hcode, AuthService.StoreResetCode,
      Redis.Set, h0, hsend]

/-- Claim C9 (amended), run on the concrete deployment: an unregistered email, and a registered
email with the mail transport down. -/
theorem C9_reset_initiation_fixed_messages_witness :
    (demo.InitiatePasswordReset ⟨"nobody@b.com"⟩ demoWorld).1 =
        some (errorsNew "failed to initiate password reset: user not found") ∧
      (demoMailDown.InitiatePasswordReset ⟨"a@b.com"⟩ demoWorld).1 =
        some (errorsNew "failed to initiate password reset: internal server error") :=
  ⟨(C9_reset_initiation_fixed_messages demo ⟨"nobody@b.com"⟩ demoWorld).1
      (.text "record not found") demoWorld.ext rfl,
    (C9_reset_initiation_fixed_messages demoMailDown ⟨"a@b.com"⟩ demoWorld).2
      ⟨1, "a@b.com", demoHash "pw"⟩ demoWorld.ext demoWorld.ext demoWorld.ext "123456"
      (.text "smtp: 550 mailbox unavailable") rfl rfl (fun _ _ => rfl) rfl⟩

/-! ## Cache expiry of issued identifiers -/

/-- Claim C10 fails on `ChangePassword`: on the concrete deployment, whose service configuration
has lifetimes of 15 and 60 minutes, a password change called with a configuration of 5 and 30
minutes returns tokens generated with 5 and 30 minutes while the two identifiers are stored with
15 and 60 minutes to live; `Login` on the same deployment stores its identifiers with the
lifetimes its tokens were generated with. -/
theorem C10_change_password_ttl_mismatch :
    (demo.ChangePassword ⟨"pw", "new"⟩ shortCfg 1 demoWorld).1 =
        .ok ⟨"as:user=1:minutes=5", "rs:user=1:minutes=30"⟩ ∧
      (demo.ChangePassword ⟨"pw", "new"⟩ shortCfg 1 demoWorld).2.redis.ttl (accessTokenKey 1) =
        some (some (15 * Minute)) ∧
      (demo.ChangePassword ⟨"pw", "new"⟩ shortCfg 1 demoWorld).2.redis.ttl (refreshTokenKey 1) =
        some (some (60 * Minute)) ∧
      (demo.Login ⟨"a@b.com", "pw"⟩ demoWorld).1 =
        .ok ⟨"as:user=1:minutes=15", "rs:user=1:minutes=60"⟩ ∧
      (demo.Login ⟨"a@b.com", "pw"⟩ demoWorld).2.redis.ttl (accessTokenKey 1) =
        some (some (15 * Minute)) ∧
      (demo.Login ⟨"a@b.com", "pw"⟩ demoWorld).2.redis.ttl (refreshTokenKey 1) =
        some (some (60 * Minute)) :=
  ⟨rfl, rfl, rfl, rfl, rfl, rfl⟩

/-! ## Isolation of the sessions of different users -/

/-- With the cache reachable, the result of `GetTokensByUserID` is a function of the entries the
two keys of the user hold. -/
theorem GetTokensByUserID_fst_eq (h : AuthService ω) (v : Int) (w : World ω)
    (hr : w.redis.reachable 2) :
    (h.GetTokensByUserID v w).1 =
      match w.redis.live (accessTokenKey v), w.redis.live (refreshTokenKey v) with
      | some ea, some er => .ok ⟨ea.value, er.value⟩
      | _, _ => .error .redisNil := by
  have h0 : w.redis.faults w.redis.calls = none := reachable_zero hr
  have h1 : w.redis.issued.faults w.redis.issued.calls = none := hr 1 (by omega)
  cases ha : w.redis.live (accessTokenKey v) with
  | none => simp [AuthService.GetTokensByUserID, Redis.Get, h0, ha]
  | some ea =>
    have hb2 := issued_live w.redis (refreshTokenKey v)
    cases hb : w.redis.live (refreshTokenKey v) with
    | none =>
      rw [hb] at hb2
      simp [AuthService.GetTokensByUserID, Redis.Get, h0, ha, h1, hb2]
    | some er =>
      rw [hb] at hb2
      simp [AuthService.GetTokensByUserID, Redis.Get, h0, ha, h1, hb2]

/-- Two worlds in which the keys of `v` read the same keep the session of `v`. -/
theorem SessionUntouched_of_live (h : AuthService ω) (v : Int) (w w2 : World ω)
    (ha : w2.redis.live (accessTokenKey v) = w.redis.live (accessTokenKey v))
    (hb : w2.redis.live (refreshTokenKey v) = w.redis.live (refreshTokenKey v)) :
    SessionUntouched h v w w2 := by
  refine ⟨ha, hb, ?_⟩
  intro hr hr2
  rw [GetTokensByUserID_fst_eq h v w hr, GetTokensByUserID_fst_eq h v w2 hr2, ha, hb]

/-- Whether or not its writes reach the server, `StoreTokensByUserID u` leaves every key other
than the two keys of `u` as it was. -/
theorem StoreTokensByUserID_frame (h : AuthService ω) (u : Int) (tokens : TokenMapping)
    (w : World ω) (k : String) (hka : k ≠ accessTokenKey u) (hkr : k ≠ refreshTokenKey u) :
    (h.StoreTokensByUserID u tokens w).2.redis.live k = w.redis.live k := by
  have f1 := Set_live_other w.redis (accessTokenKey u) tokens.AccessUid
    (minutesDuration h.cfg.AccessLifetimeMinutes) k hka
  have f2 := Set_live_other (w.redis.Set (accessTokenKey u) tokens.AccessUid
    (minutesDuration h.cfg.AccessLifetimeMinutes)).2 (refreshTokenKey u) tokens.RefreshUid
    (minutesDuration h.cfg.RefreshLifetimeMinutes) k hkr
  unfold AuthService.StoreTokensByUserID
  generalize w.redis.Set (accessTokenKey u) tokens.AccessUid
    (minutesDuration h.cfg.AccessLifetimeMinutes) = p1 at f1 f2 ⊢
  obtain ⟨o1, r1⟩ := p1
  simp only at f1 f2 ⊢
  cases o1 with
  | some err => exact f1
  | none =>
    simp only
    generalize r1.Set (refreshTokenKey u) tokens.RefreshUid
      (minutesDuration h.cfg.RefreshLifetimeMinutes) = p2 at f2 ⊢
    obtain ⟨o2, r2⟩ := p2
    simp only at f2 ⊢
    cases o2 with
    | some err => exact f2.trans f1
    | none => exact f2.trans f1

/-- Whether or not its deletes reach the server, `DeleteTokensByUserID u` leaves every key other
than the two keys of `u` as it was. -/
theorem DeleteTokensByUserID_frame (h : AuthService ω) (u : Int) (w : World ω) (k : String)
    (hka : k ≠ accessTokenKey u) (hkr : k ≠ refreshTokenKey u) :
    (h.DeleteTokensByUserID u w).2.redis.live k = w.redis.live k := by
  have f1 := Del_live_other w.redis (accessTokenKey u) k hka
  have f2 := Del_live_other (w.redis.Del (accessTokenKey u)).2 (refreshTokenKey u) k hkr
  unfold AuthService.DeleteTokensByUserID
  generalize w.redis.Del (accessTokenKey u) = p1 at f1 f2 ⊢
  obtain ⟨o1, r1⟩ := p1
  simp only at f1 f2 ⊢
  cases o1 with
  | some err => exact f1
  | none =>
    simp only
    generalize r1.Del (refreshTokenKey u) = p2 at f2 ⊢
    obtain ⟨o2, r2⟩ := p2
    simp only at f2 ⊢
    cases o2 with
    | some err => exact f2.trans f1
    | none => exact f2.trans f1

/-- Whatever its outcome, `GetTokenPair u` leaves every key other than the two keys of `u` as it
was. -/
theorem GetTokenPair_frame (h : AuthService ω) (u : Int) (w : World ω) (k : String)
    (hka : k ≠ accessTokenKey u) (hkr : k ≠ refreshTokenKey u) :
    (h.GetTokenPair u w).2.redis.live k = w.redis.live k := by
  have fd := DeleteTokensByUserID_frame h u w k hka hkr
  unfold AuthService.GetTokenPair
  generalize h.DeleteTokensByUserID u w = pd at fd ⊢
  obtain ⟨od, w1⟩ := pd
  simp only at fd ⊢
  cases od with
  | some err => exact fd
  | none =>
    simp only
    generalize h.GenerateToken w1.ext u h.cfg.AccessLifetimeMinutes h.cfg.AccessSecret = pa
    obtain ⟨oa, x1⟩ := pa
    cases oa with
    | error err => exact fd
    | ok ta =>
      obtain ⟨accessToken, accessUid⟩ := ta
      simp only
      generalize h.GenerateToken x1 u h.cfg.RefreshLifetimeMinutes h.cfg.RefreshSecret = pr
      obtain ⟨or2, x2⟩ := pr
      cases or2 with
      | error err => exact fd
      | ok tr =>
        obtain ⟨refreshToken, refreshUid⟩ := tr
        simp only
        have fs := StoreTokensByUserID_frame h u ⟨accessUid, refreshUid⟩
          ({ w1 with ext := x2 } : World ω) k hka hkr
        generalize h.StoreTokensByUserID u ⟨accessUid, refreshUid⟩
          ({ w1 with ext := x2 } : World ω) = ps at fs ⊢
        obtain ⟨os, w2⟩ := ps
        simp only at fs ⊢
        cases os with
        | some err => exact fs.trans fd
        | none => exact fs.trans fd

/-- Whether or not its write reaches the server, `StoreResetCode` leaves every key other than the
reset-code key of the email as it was. -/
theorem StoreResetCode_frame (h : AuthService ω) (email code : String) (w : World ω)
    (k : String) (hk : k ≠ resetCodeKey email) :
    (h.StoreResetCode email code w).2.redis.live k = w.redis.live k := by
  have f1 := Set_live_other w.redis (resetCodeKey email) code resetCodeTTL k hk
  unfold AuthService.StoreResetCode
  generalize w.redis.Set (resetCodeKey email) code resetCodeTTL = p1 at f1 ⊢
  obtain ⟨o1, r1⟩ := p1
  cases o1 with
  | some err => exact f1
  | none => exact f1

/-- Claim C11: for two distinct user ids `u` and `v`, each of `StoreTokensByUserID u`,
`DeleteTokensByUserID u`, `Logout u` and `GetTokenPair u`, whatever its outcome, leaves the access
key and the refresh key of `v` holding what they held, so that `GetTokensByUserID v` returns the
same result before and after (the cache being reachable for the reads); `StoreResetCode`, for any
email and code, leaves the two keys of every user as they were; and the keys never coincide:
access keys and refresh keys of distinct users differ, and no access key, refresh key and
reset-code key are equal to one another. -/
theorem C11_sessions_isolated (h : AuthService ω) (u v : Int) (huv : u ≠ v) (w : World ω) :
    (∀ tokens : TokenMapping, SessionUntouched h v w (h.StoreTokensByUserID u tokens w).2) ∧
      SessionUntouched h v w (h.DeleteTokensByUserID u w).2 ∧
      SessionUntouched h v w (h.Logout u w).2 ∧
      SessionUntouched h v w (h.GetTokenPair u w).2 ∧
      (∀ (email code : String) (id : Int),
        SessionUntouched h id w (h.StoreResetCode email code w).2) ∧
      accessTokenKey u ≠ accessTokenKey v ∧ refreshTokenKey u ≠ refreshTokenKey v ∧
      ∀ (a b : Int) (email : String),
        accessTokenKey a ≠ refreshTokenKey b ∧ resetCodeKey email ≠ accessTokenKey a ∧
          resetCodeKey email ≠ refreshTokenKey b := by
  have haa : accessTokenKey v ≠ accessTokenKey u :=
    fun hk => huv (accessTokenKey_injective v u hk).symm
  have har : accessTokenKey v ≠ refreshTokenKey u := accessTokenKey_ne_refreshTokenKey v u
  have hra : refreshTokenKey v ≠ accessTokenKey u :=
    fun hk => accessTokenKey_ne_refreshTokenKey u v hk.symm
  have hrr : refreshTokenKey v ≠ refreshTokenKey u :=
    fun hk => huv (refreshTokenKey_injective v u hk).symm
  refine ⟨?_, ?_, ?_, ?_, ?_, fun hk => haa hk.symm, fun hk => hrr hk.symm, ?_⟩
  · intro tokens
    exact SessionUntouched_of_live h v w _
      (StoreTokensByUserID_frame h u tokens w _ haa har)
      (StoreTokensByUserID_frame h u tokens w _ hra hrr)
  · exact SessionUntouched_of_live h v w _
      (DeleteTokensByUserID_frame h u w _ haa har)
      (DeleteTokensByUserID_frame h u w _ hra hrr)
  · rw [Logout_eq]
    exact SessionUntouched_of_live h v w _
      (DeleteTokensByUserID_frame h u w _ haa har)
      (DeleteTokensByUserID_frame h u w _ hra hrr)
  · exact SessionUntouched_of_live h v w _
      (GetTokenPair_frame h u w _ haa har)
      (GetTokenPair_frame h u w _ hra hrr)
  · intro email code id
    exact SessionUntouched_of_live h id w _
      (StoreResetCode_frame h email code w _ (Ne.symm (resetCodeKey_ne_accessTokenKey email id)))
      (StoreResetCode_frame h email code w _ (Ne.symm (resetCodeKey_ne_refreshTokenKey email id)))
  · intro a b email
    exact ⟨accessTokenKey_ne_refreshTokenKey a b, resetCodeKey_ne_accessTokenKey email a,
      resetCodeKey_ne_refreshTokenKey email b⟩

/-- Claim C11, run on the concrete deployment: user `1` holds the session `uid-0`, `uid-1` while
tokens are stored, deleted and rotated for user `2` and a reset code is stored; the session read
for user `1` after the rotation of user `2` is still `uid-0`, `uid-1`. -/
theorem C11_sessions_isolated_witness :
    (2 : Int) ≠ 1 ∧
      SessionUntouched demo 1 sessionWorld
        (demo.StoreTokensByUserID 2 ⟨"x", "y"⟩ sessionWorld).2 ∧
      SessionUntouched demo 1 sessionWorld (demo.DeleteTokensByUserID 2 sessionWorld).2 ∧
      SessionUntouched demo 1 sessionWorld (demo.Logout 2 sessionWorld).2 ∧
      SessionUntouched demo 1 sessionWorld (demo.GetTokenPair 2 sessionWorld).2 ∧
      SessionUntouched demo 1 sessionWorld
        (demo.StoreResetCode "a@b.com" "123456" sessionWorld).2 ∧
      (demo.GetTokenPair 2 sessionWorld).1 =
        .ok ⟨"as:user=2:minutes=15", "rs:user=2:minutes=60"⟩ ∧
      (demo.GetTokensByUserID 1 (demo.GetTokenPair 2 sessionWorld).2).1 =
        .ok ⟨"uid-0", "uid-1"⟩ :=
  have hC := C11_sessions_isolated demo 2 1 (by decide) sessionWorld
  ⟨by decide, hC.1 ⟨"x", "y"⟩, hC.2.1, hC.2.2.1, hC.2.2.2.1, hC.2.2.2.2.1 "a@b.com" "123456" 1,
    rfl, (hC.2.2.2.1.2.2 (fun _ _ => rfl) (fun _ _ => rfl)).trans rfl⟩

end FoodApp
